import Mathlib

/-!
Shallow embedding of the resilient HTTP request layer of the `belin`
storefront repository, and proofs about the claims of its specification.

Embedded source files:
* `src/lib/api/client.js` — the shared helpers (`handleResponse`,
  `handleAPIError`, `calculateRetryDelay`, the error taxonomy) and the
  browser-side retry loop `clientRequest`;
* `src/lib/api/server.js` — the server-side retry loop `serverRequest`;
* `src/hooks/useSession.js` — the `JsonApiClient` class with its request
  deduplication map, TTL response cache and recursive retry logic;
* `src/unnamed/part_001` — `createMemoryCache`.

Conventions of the embedding:
* The JavaScript runtime's `fetch` is replaced by an oracle
  `Nat → FetchOutcome` giving the raw outcome of the k-th attempt of a
  logical call.  Each evaluation of the oracle corresponds to exactly one
  outbound network call, so network calls are counted by counting oracle
  consultations in the trace.
* JS `Map` objects are modelled as association lists in insertion order
  (JS `Map` iterates in insertion order, and `set` on an existing key
  keeps its position — both facts the eviction code relies on).
* Timestamps and durations are natural numbers of milliseconds.
* Response payloads are abstracted to `Nat`; the request layer never
  inspects them.
-/

set_option autoImplicit false

namespace Belin

/-! ### JS values and errors -/

/-- Raw outcome of a single `fetch` attempt, as delivered by the JS runtime:
either the promise rejects (abort signal, transport-level `TypeError`) or an
HTTP response arrives.  `status` is the HTTP status code, `errText` the body
text (used in error messages), `jsonOk` whether the body parses as JSON and
`data` the parsed payload. -/
inductive FetchOutcome where
  | abort
  | typeError (msg : String)
  | response (status : Nat) (errText : String) (jsonOk : Bool) (data : Nat)
deriving DecidableEq, Repr

/-- `API_ERRORS` from `src/lib/api/client.js` (shared section): the closed
error taxonomy. -/
inductive ErrType where
  | TIMEOUT
  | NETWORK
  | NOT_FOUND
  | SERVER_ERROR
  | INVALID_RESPONSE
deriving DecidableEq, Repr

/-- The `APIError` class of the shared section of `src/lib/api/client.js`:
`{message, type, status}`.  The `details` field is always `null` on the
paths modelled here and is omitted. -/
structure APIError where
  message : String
  type : ErrType
  status : Option Nat
deriving DecidableEq, Repr

/-- A JS error value as observed by the `catch` blocks of the request layer:
an `APIError` (name `"APIError"`), an abort rejection (name `"AbortError"`),
a transport-level `TypeError`, or the `SyntaxError` thrown by
`response.json()` on an unparseable body. -/
inductive JsError where
  | apiError (e : APIError)
  | abortError
  | typeError (msg : String)
  | invalidJson
deriving DecidableEq, Repr

/-- The `name` property of a JS error value. -/
def jsName : JsError → String
  | .apiError _ => "APIError"
  | .abortError => "AbortError"
  | .typeError _ => "TypeError"
  | .invalidJson => "SyntaxError"

/-- The `message` property of a JS error value.  The precise abort and JSON
messages never matter: no code path of the repository compares them. -/
def jsMessage : JsError → String
  | .apiError e => e.message
  | .abortError => "The operation was aborted"
  | .typeError m => m
  | .invalidJson => "Unexpected end of JSON input"

/-! ### JS `Map` as an insertion-ordered association list -/

/-- A JS `Map` with string keys: an association list in insertion order.
JS maps have unique keys; `mapSet` preserves that invariant. -/
abbrev JsMap (α : Type) := List (String × α)

/-- `Map.get`: the value stored under `k`, if any. -/
def mapGet {α : Type} (m : JsMap α) (k : String) : Option α :=
  (m.find? (fun p => p.1 == k)).map (fun p => p.2)

/-- `Map.set`: update the value in place if the key is present (keeping its
insertion position, as JS `Map.set` does), otherwise append at the end. -/
def mapSet {α : Type} : JsMap α → String → α → JsMap α
  | [], k, v => [(k, v)]
  | (k', v') :: rest, k, v =>
    if k' == k then (k, v) :: rest else (k', v') :: mapSet rest k v

/-- `Map.delete`: remove the entry with key `k`.  JS `Map` keys are unique,
so deleting the (single) entry is modelled as filtering out every pair with
this key. -/
def mapDelete {α : Type} (m : JsMap α) (k : String) : JsMap α :=
  m.filter (fun p => p.1 != k)

/-! ### Shared helpers of `src/lib/api/client.js` -/

/-- `TIMEOUT_CONFIG.default` (ms). -/
def TIMEOUT_CONFIG_default : Nat := 10000

/-- `TIMEOUT_CONFIG.client` (ms). -/
def TIMEOUT_CONFIG_client : Nat := 8000

/-- `response.ok`: HTTP status in the 200–299 range. -/
def response_ok (status : Nat) : Bool :=
  200 ≤ status && status ≤ 299

/-- The error type assigned by `handleResponse` to a non-ok status:
`errorType` is initialised to `SERVER_ERROR`; the `switch` sends 404 to
`NOT_FOUND` and 408/504 to `TIMEOUT`; the `default` branch re-assigns
`SERVER_ERROR` when `status >= 500` and otherwise leaves the initial
`SERVER_ERROR`, so every remaining status classifies as `SERVER_ERROR`. -/
def classifyStatus (status : Nat) : ErrType :=
  match status with
  | 404 => .NOT_FOUND
  | 408 => .TIMEOUT
  | 504 => .TIMEOUT
  | _ => .SERVER_ERROR

/-- `handleResponse` of `src/lib/api/client.js`: a non-ok response throws an
`APIError` carrying `HTTP <status>: <body text>`, the classified type and
the status; an ok response yields the parsed JSON body, or throws the
parser's `SyntaxError` when the body does not parse.  (The `catch (e)`
around `response.text()` is not modelled: reading the body text is assumed
to succeed, which only affects the message string.) -/
def handleResponse (status : Nat) (errText : String) (jsonOk : Bool)
    (data : Nat) : Except JsError Nat :=
  if !(response_ok status) then
    .error (.apiError ⟨"HTTP " ++ toString status ++ ": " ++ errText,
      classifyStatus status, some status⟩)
  else if jsonOk then
    .ok data
  else
    .error .invalidJson

/-- `handleAPIError` of `src/lib/api/client.js`.  Note that for an abort
signal or a `'fetch failed'` message it THROWS a fresh classified
`APIError` (modelled as `.error`), while every other error is RETURNED
unchanged (modelled as `.ok`).  The `url`/`attempt`/`maxRetries` parameters
only feed `console.error` and are dropped. -/
def handleAPIError (e : JsError) : Except JsError JsError :=
  if jsName e = "AbortError" then
    .error (.apiError ⟨"Request timeout", .TIMEOUT, none⟩)
  else if jsMessage e = "fetch failed" then
    .error (.apiError ⟨"Network error - Unable to connect to API", .NETWORK, none⟩)
  else
    .ok e

/-- `calculateRetryDelay` of `src/lib/api/client.js`:
`Math.min(1000 * Math.pow(2, attempt), maxDelay)`.  The source's default
`maxDelay` is 5000; `serverRequest` uses the default and `clientRequest`
passes 3000 explicitly. -/
def calculateRetryDelay (attempt maxDelay : Nat) : Nat :=
  min (1000 * 2 ^ attempt) maxDelay

/-- Combined effect of one `await fetch` + `handleResponse` inside a `try`
block: either the parsed data, or the JS error observed by the `catch`. -/
def attemptOutcome : FetchOutcome → Except JsError Nat
  | .abort => .error .abortError
  | .typeError m => .error (.typeError m)
  | .response s errText jOk d => handleResponse s errText jOk d

/-! ### `clientRequest` of `src/lib/api/client.js` -/

instance {ε α : Type} [DecidableEq ε] [DecidableEq α] : DecidableEq (Except ε α) :=
  fun x y =>
    match x, y with
    | .ok a, .ok b =>
      if h : a = b then isTrue (h ▸ rfl)
      else isFalse (fun hh => h (by injection hh))
    | .ok _, .error _ => isFalse (fun hh => Except.noConfusion hh)
    | .error _, .ok _ => isFalse (fun hh => Except.noConfusion hh)
    | .error a, .error b =>
      if h : a = b then isTrue (h ▸ rfl)
      else isFalse (fun hh => h (by injection hh))

/-- Trace of one run of a retry loop: the surfaced result, the log of
network calls as `(attempt index, timeout timer armed when the call was
issued)`, and the backoff delays waited between attempts. -/
structure ReqTrace where
  result : Except JsError Nat
  callLog : List (Nat × Bool)
  delays : List Nat
deriving DecidableEq, Repr

/-- The final error thrown by `clientRequest` when attempts are exhausted:
`lastError instanceof APIError ? lastError : new APIError('Request failed',
NETWORK)`. -/
def toFinalClientError : JsError → JsError
  | .apiError e => .apiError e
  | _ => .apiError ⟨"Request failed", .NETWORK, none⟩

/-- The final error thrown by `serverRequest` when attempts are exhausted:
`lastError instanceof APIError ? lastError : new APIError(lastError.message
|| 'Unknown error', SERVER_ERROR)`. -/
def toFinalServerError (e : JsError) : JsError :=
  match e with
  | .apiError a => .apiError a
  | _ =>
    .apiError ⟨if jsMessage e = "" then "Unknown error" else jsMessage e,
      .SERVER_ERROR, none⟩

/-- The `error instanceof APIError && error.type === API_ERRORS.NOT_FOUND`
test of `serverRequest`. -/
def isNotFoundAPIError : JsError → Bool
  | .apiError a => a.type == .NOT_FOUND
  | _ => false

/-- The retry loop of `clientRequest` (`src/lib/api/client.js`), starting at
`attempt` with `remaining = retries - attempt` further attempts allowed.
`timer` records whether the single `setTimeout`-armed abort timer is still
pending when this attempt's `fetch` is issued: the timer is armed once
before the loop and `clearTimeout` runs as soon as the first attempt
settles (in both the success and the catch path), so it is never re-armed
for retries.  A throw out of `handleAPIError` escapes the loop (there is no
enclosing handler), surfacing immediately. -/
def clientRequestGo (oracle : Nat → FetchOutcome) :
    Nat → Nat → Bool → ReqTrace
  | remaining, attempt, timer =>
    match handleAPIErrorStep (attemptOutcome (oracle attempt)) with
    | .inl done => ⟨done, [(attempt, timer)], []⟩
    | .inr lastError =>
      match remaining with
      | 0 => ⟨.error (toFinalClientError lastError), [(attempt, timer)], []⟩
      | r + 1 =>
        let t := clientRequestGo oracle r (attempt + 1) false
        ⟨t.result, (attempt, timer) :: t.callLog,
          calculateRetryDelay attempt 3000 :: t.delays⟩
where
  /-- The part of one loop iteration before the retry decision: a success
  returns data; a caught error goes through `handleAPIError`, whose throw
  surfaces at once; only a returned `lastError` reaches the retry logic. -/
  handleAPIErrorStep : Except JsError Nat → (Except JsError Nat) ⊕ JsError
    | .ok d => .inl (.ok d)
    | .error err =>
      match handleAPIError err with
      | .error thrown => .inl (.error thrown)
      | .ok lastError => .inr lastError

/-- `clientRequest(url, options)`: runs the loop from attempt 0 with the
abort timer armed.  The source default is `retries = 2`. -/
def clientRequestRun (oracle : Nat → FetchOutcome) (retries : Nat) : ReqTrace :=
  clientRequestGo oracle retries 0 true

/-- The retry loop of `serverRequest` (`src/lib/api/server.js`).  Identical
to `clientRequestGo` except that (a) after `handleAPIError` returns, a
caught `APIError` of type `NOT_FOUND` is re-thrown without retrying, (b)
the backoff ceiling is the default 5000 and (c) the exhaustion fallback
error differs. -/
def serverRequestGo (oracle : Nat → FetchOutcome) :
    Nat → Nat → Bool → ReqTrace
  | remaining, attempt, timer =>
    match serverStep (attemptOutcome (oracle attempt)) with
    | .inl done => ⟨done, [(attempt, timer)], []⟩
    | .inr lastError =>
      match remaining with
      | 0 => ⟨.error (toFinalServerError lastError), [(attempt, timer)], []⟩
      | r + 1 =>
        let t := serverRequestGo oracle r (attempt + 1) false
        ⟨t.result, (attempt, timer) :: t.callLog,
          calculateRetryDelay attempt 5000 :: t.delays⟩
where
  /-- One iteration up to the retry decision, including the
  `Don't retry 404s` check on the caught error. -/
  serverStep : Except JsError Nat → (Except JsError Nat) ⊕ JsError
    | .ok d => .inl (.ok d)
    | .error err =>
      match handleAPIError err with
      | .error thrown => .inl (.error thrown)
      | .ok lastError =>
        if isNotFoundAPIError err then .inl (.error err) else .inr lastError

/-- `serverRequest(url, options)`: source default is `retries = 1`. -/
def serverRequestRun (oracle : Nat → FetchOutcome) (retries : Nat) : ReqTrace :=
  serverRequestGo oracle retries 0 true

/-! ### The `JsonApiClient` of `src/hooks/useSession.js`

This is the class with request deduplication (`pendingRequests`), the
module-level TTL response cache (`requestCache`) and recursive retry.
Its configuration object `config/api.config.js` is embedded in
`src/hooks/useAuth.js` (the live copy at lines 783–811).
-/

/-- `API_CONFIG.RETRY_ATTEMPTS` of `config/api.config.js`, whose live
copy sits in `src/hooks/useAuth.js`: `RETRY_ATTEMPTS: 3`. -/
def API_CONFIG_RETRY_ATTEMPTS : Nat := 3

/-- `API_CONFIG.RETRY_DELAY` of `config/api.config.js`, whose live copy
sits in `src/hooks/useAuth.js`: `RETRY_DELAY: 1000` (ms). -/
def API_CONFIG_RETRY_DELAY : Nat := 1000

/-- `ERROR_MESSAGES.TIMEOUT` of `config/api.config.js`, whose live copy
sits in `src/hooks/useAuth.js`.  Only its identity matters, never its
text. -/
def ERROR_MESSAGES_TIMEOUT : String := "انتهت مهلة الطلب، حاول مرة أخرى"

/-- `CACHE_TTL` of `src/hooks/useSession.js`: 5000 ms. -/
def CACHE_TTL : Nat := 5000

/-- An entry of the module-level `requestCache`:
`{response, timestamp}`. -/
structure CacheEntry where
  response : Nat
  timestamp : Nat
deriving DecidableEq, Repr

/-- The `requestCache` map. -/
abbrev Cache := JsMap CacheEntry

/-- The `ApiError` class of `src/hooks/useSession.js`:
`{status, message}` (the `details` payload is dropped). -/
inductive JsonErr where
  | apiError (status : Nat) (message : String)
  | typeError (msg : String)
  | invalidJson
deriving DecidableEq, Repr

/-- What a caller of `JsonApiClient.request` can observe its returned
promise do. `attached` means the call returned an already-pending promise
for the same identity. `hung` means the promise never settles. `stuck` is
the fuel-exhaustion marker of the model, unreachable for positive fuel. -/
inductive JsonOutcome where
  | value (d : Nat)
  | attached
  | thrown (e : JsonErr)
  | hung
  | stuck
deriving DecidableEq, Repr

/-- Trace of one `JsonApiClient.request` call: the observable outcome, the
number of network calls made, the backoff delays awaited, the number of
times the `finally` block deleted the pending registration, and the final
cache and pending-key states. -/
structure JsonTrace where
  outcome : JsonOutcome
  calls : Nat
  delays : List Nat
  releases : Nat
  cache : Cache
  pending : List String
deriving DecidableEq, Repr

/-- `getCacheKey(endpoint, method, body)`:
`` `${method}:${endpoint}:${bodyKey}` `` with `bodyKey` the serialised body
or `''` when the body is `null`. -/
def getCacheKey (endpoint method : String) (body : Option Nat) : String :=
  method ++ ":" ++ endpoint ++ ":" ++
    (match body with
     | some b => toString b
     | none => "")

/-- `getCachedResponse(cacheKey)`: a hit requires an entry whose age
satisfies `Date.now() - cached.timestamp < CACHE_TTL`; otherwise the entry
(if any) is deleted and the lookup misses.  Returns the looked-up value and
the cache after the lookup. -/
def getCachedResponse (now : Nat) (cache : Cache) (cacheKey : String) :
    Option Nat × Cache :=
  match mapGet cache cacheKey with
  | some c =>
    if now - c.timestamp < CACHE_TTL then (some c.response, cache)
    else (none, mapDelete cache cacheKey)
  | none => (none, mapDelete cache cacheKey)

/-- `setCachedResponse(cacheKey, response)`: store `{response, timestamp:
Date.now()}`, then, if the map has grown beyond 100 entries, delete the
first-inserted key (`requestCache.keys().next().value`). -/
def setCachedResponse (now : Nat) (cache : Cache) (cacheKey : String)
    (resp : Nat) : Cache :=
  let c1 := mapSet cache cacheKey ⟨resp, now⟩
  if c1.length > 100 then
    match c1.head? with
    | some p => mapDelete c1 p.1
    | none => c1
  else c1

/-- The cache consultation at the top of `request`: performed only for GET
(`if (method === 'GET')`); other methods never touch the cache here. -/
def jsonLookup (method : String) (now : Nat) (cache : Cache)
    (cacheKey : String) : Option Nat × Cache :=
  if method == "GET" then getCachedResponse now cache cacheKey
  else (none, cache)

/-- The `ApiError` message for a non-ok response:
`errorData.message || errorData.errorMessage || 'Request failed'`, where
`errorData` is `await response.json().catch(() => ({message: 'Unknown
error occurred'}))`.  The shape of the error body is abstracted: a parsing
body contributes its text, a non-parsing one the fallback message. -/
def jsonErrorMessage (jOk : Bool) (errText : String) : String :=
  if jOk then (if errText = "" then "Request failed" else errText)
  else "Unknown error occurred"

/-- Combine the outer call with the promise returned by the recursive
retry call `return this.request(endpoint, method, body, extraHeaders,
retryCount + 1)`.

The recursive call runs while the outer call's `cacheKey` is still in
`pendingRequests` (the `finally` delete only runs after the `return`
expression is evaluated), so it takes the dedup early-return and yields the
outer call's own pending promise.  The outer async block then resolves its
promise with a fresh promise that adopts the outer promise itself: the two
promises each wait on the other and neither ever settles.  JS only detects
the one-step `SameValue` cycle, not this two-promise cycle, so the caller
observes a promise that hangs forever — hence `.attached` from the inner
call maps to `.hung` for the outer one.  The `finally` block still runs
(one release), after the backoff delay has been awaited and the single
network call of this level has been made. -/
def retryCombine (rD rc : Nat) (cacheKey : String) (inner : JsonTrace) :
    JsonTrace :=
  ⟨(if inner.outcome = .attached then .hung else inner.outcome),
    1 + inner.calls,
    rD * 2 ^ rc :: inner.delays,
    inner.releases + 1,
    inner.cache,
    inner.pending.erase cacheKey⟩

/-- `JsonApiClient.request(endpoint, method, body, extraHeaders,
retryCount)` of `src/hooks/useSession.js`, with `rA` =
`API_CONFIG.RETRY_ATTEMPTS`, `rD` = `API_CONFIG.RETRY_DELAY`, `now` the
current clock and `oracle rc` the raw outcome of the fetch performed at
recursion depth `rc`.  In source order: GET cache consultation, dedup
check against `pendingRequests`, registration, one fetch attempt, then
per-outcome handling — non-ok status with `status >= 500 &&
retryCount < RETRY_ATTEMPTS` retries, other non-ok statuses throw
`ApiError`, an ok unparseable body rethrows the parse error, an ok GET
result is written through the cache; `AbortError` retries or throws
`ApiError(408)`, `TypeError` retries or is rethrown raw.  Every exit of
the attempt block runs the `finally` delete of the registration. -/
def jsonRequestGo (oracle : Nat → FetchOutcome) (endpoint method : String)
    (body : Option Nat) (rA rD now : Nat) :
    Nat → Nat → Cache → List String → JsonTrace
  | fuel, rc, cache, pending =>
    let cacheKey := getCacheKey endpoint method body
    let look := jsonLookup method now cache cacheKey
    match look.1 with
    | some d => ⟨.value d, 0, [], 0, look.2, pending⟩
    | none =>
      if pending.contains cacheKey then
        ⟨.attached, 0, [], 0, look.2, pending⟩
      else
        let p1 := pending ++ [cacheKey]
        match fuel with
        | 0 => ⟨.stuck, 0, [], 0, look.2, p1⟩
        | fuel' + 1 =>
          match oracle rc with
          | .response s errText jOk d =>
            if response_ok s then
              if jOk then
                let c2 := if method == "GET"
                  then setCachedResponse now look.2 cacheKey d
                  else look.2
                ⟨.value d, 1, [], 1, c2, p1.erase cacheKey⟩
              else
                ⟨.thrown .invalidJson, 1, [], 1, look.2, p1.erase cacheKey⟩
            else
              if 500 ≤ s ∧ rc < rA then
                retryCombine rD rc cacheKey
                  (jsonRequestGo oracle endpoint method body rA rD now
                    fuel' (rc + 1) look.2 p1)
              else
                ⟨.thrown (.apiError s (jsonErrorMessage jOk errText)),
                  1, [], 1, look.2, p1.erase cacheKey⟩
          | .abort =>
            if rc < rA then
              retryCombine rD rc cacheKey
                (jsonRequestGo oracle endpoint method body rA rD now
                  fuel' (rc + 1) look.2 p1)
            else
              ⟨.thrown (.apiError 408 ERROR_MESSAGES_TIMEOUT),
                1, [], 1, look.2, p1.erase cacheKey⟩
          | .typeError m =>
            if rc < rA then
              retryCombine rD rc cacheKey
                (jsonRequestGo oracle endpoint method body rA rD now
                  fuel' (rc + 1) look.2 p1)
            else
              ⟨.thrown (.typeError m), 1, [], 1, look.2, p1.erase cacheKey⟩

/-- `createMemoryCache(maxSize).set(key, value)` of `src/unnamed/part_001`:
when the map is at (or beyond) capacity, the first-inserted key is deleted
before the new value is stored. -/
def memoryCacheSet (maxSize : Nat) (cache : JsMap Nat) (k : String)
    (v : Nat) : JsMap Nat :=
  let c1 :=
    if cache.length ≥ maxSize then
      match cache.head? with
      | some p => mapDelete cache p.1
      | none => cache
    else cache
  mapSet c1 k v

/-! ### Helper lemmas about the JS `Map` model -/

theorem mapGet_mapDelete {α : Type} (m : JsMap α) (k : String) :
    mapGet (mapDelete m k) k = none := by
  induction m with
  | nil => rfl
  | cons p t ih =>
    by_cases h : p.1 = k
    · subst h
      simp only [mapDelete, List.filter_cons, bne_self_eq_false,
        Bool.false_eq_true, if_false] at ih ⊢
      exact ih
    · have hb : (p.1 == k) = false := beq_eq_false_iff_ne.mpr h
      simp only [mapDelete, List.filter_cons, bne, hb, Bool.not_false,
        if_true] at ih ⊢
      simp only [mapGet, List.find?_cons, hb]
      exact ih

theorem mapDelete_of_get_none {α : Type} (m : JsMap α) (k : String)
    (h : mapGet m k = none) : mapDelete m k = m := by
  induction m with
  | nil => rfl
  | cons p t ih =>
    by_cases hp : p.1 = k
    · have hb : (p.1 == k) = true := beq_iff_eq.mpr hp
      simp [mapGet, List.find?_cons, hb] at h
    · have hb : (p.1 == k) = false := beq_eq_false_iff_ne.mpr hp
      have hbne : (p.1 != k) = true := by simp [bne, hb]
      simp only [mapGet, List.find?_cons, hb] at h
      simp only [mapDelete, List.filter_cons, hbne, if_true]
      have := ih (by simpa [mapGet] using h)
      simp only [mapDelete] at this
      rw [this]

theorem mapGet_eq_none_iff {α : Type} (m : JsMap α) (k : String) :
    mapGet m k = none ↔ ∀ q ∈ m, q.1 ≠ k := by
  simp only [mapGet, Option.map_eq_none', List.find?_eq_none]
  constructor
  · intro h q hq
    exact fun he => by simpa [he] using h q hq
  · intro h q hq
    simpa using h q hq

theorem mapSet_of_get_none {α : Type} (m : JsMap α) (k : String) (v : α)
    (h : mapGet m k = none) : mapSet m k v = m ++ [(k, v)] := by
  induction m with
  | nil => rfl
  | cons p t ih =>
    by_cases hp : p.1 == k
    · simp [mapGet, List.find?_cons, hp] at h
    · simp only [mapGet, List.find?_cons, hp] at h
      simp [mapSet, hp, ih h]

theorem mapSet_length {α : Type} (m : JsMap α) (k : String) (v : α) :
    (mapSet m k v).length = m.length ∨
      (mapSet m k v).length = m.length + 1 := by
  induction m with
  | nil => right; rfl
  | cons p t ih =>
    by_cases hp : p.1 == k
    · left; simp [mapSet, hp]
    · rcases ih with ih | ih
      · left; simp [mapSet, hp, ih]
      · right; simp [mapSet, hp, ih]

theorem mapDelete_cons_head_le {α : Type} (p : String × α) (t : JsMap α) :
    (mapDelete (p :: t) p.1).length ≤ t.length := by
  simp only [mapDelete, List.filter_cons, bne_self_eq_false]
  exact List.length_filter_le _ t

theorem mapDelete_cons_of_not_mem {α : Type} (x : String) (v : α)
    (t : JsMap α) (h : ∀ q ∈ t, q.1 ≠ x) : mapDelete ((x, v) :: t) x = t := by
  have h1 : List.filter (fun p => p.1 != x) t = t :=
    List.filter_eq_self.mpr (fun q hq => by
      simp [bne, beq_eq_false_iff_ne.mpr (h q hq)])
  simp [mapDelete, List.filter_cons, h1]

/-! ### Helper lemmas about pending-key lists -/

theorem contains_append_self (l : List String) (k : String) :
    (l ++ [k]).contains k = true := by
  induction l with
  | nil => simp
  | cons a t ih => simp [ih]

theorem erase_append_self (l : List String) (k : String)
    (h : l.contains k = false) : (l ++ [k]).erase k = l := by
  induction l with
  | nil => simp
  | cons a t ih =>
    by_cases ha : a = k
    · subst ha
      simp [List.contains_cons] at h
    · have hb1 : (k == a) = false := beq_eq_false_iff_ne.mpr (Ne.symm ha)
      have hb2 : (a == k) = false := beq_eq_false_iff_ne.mpr ha
      simp only [List.contains_cons, hb1, Bool.false_or] at h
      simp [List.erase_cons, hb2, ih h]

/-! ### Helper lemmas about the cache lookup -/

theorem getCachedResponse_miss_snd (now : Nat) (cache : Cache) (k : String)
    (h : (getCachedResponse now cache k).1 = none) :
    (getCachedResponse now cache k).2 = mapDelete cache k := by
  unfold getCachedResponse at *
  cases hg : mapGet cache k with
  | none => simp [hg]
  | some c =>
    simp only [hg] at h ⊢
    by_cases ht : now - c.timestamp < CACHE_TTL
    · simp [ht] at h
    · simp [ht]

theorem jsonLookup_miss_again (method : String) (now : Nat) (cache : Cache)
    (k : String) (h : (jsonLookup method now cache k).1 = none) :
    (jsonLookup method now
      (jsonLookup method now cache k).2 k).1 = none := by
  unfold jsonLookup at *
  by_cases hm : method == "GET"
  · simp only [hm, if_true] at h ⊢
    rw [getCachedResponse_miss_snd now cache k h]
    unfold getCachedResponse
    rw [mapGet_mapDelete]
  · simp [hm]

/-! ### Structural lemmas about `jsonRequestGo` -/

/-- A `request` call whose identity is already pending (and whose cache
consultation misses) attaches to the existing pending promise: no network
call, no delay, no release, pending set unchanged. -/
theorem jsonRequestGo_attached (oracle : Nat → FetchOutcome)
    (endpoint method : String) (body : Option Nat)
    (rA rD now fuel rc : Nat) (cache : Cache) (pending : List String)
    (hmiss : (jsonLookup method now cache
      (getCacheKey endpoint method body)).1 = none)
    (hp : pending.contains (getCacheKey endpoint method body) = true) :
    jsonRequestGo oracle endpoint method body rA rD now fuel rc cache
        pending =
      ⟨.attached, 0, [], 0,
        (jsonLookup method now cache (getCacheKey endpoint method body)).2,
        pending⟩ := by
  rw [jsonRequestGo]
  simp only [hmiss, hp, if_true]

/-- A `request` call that registers (identity not pending, cache
consultation misses) releases its registration exactly once, restores the
pending set, and makes exactly one network call, whatever the attempt's
outcome is — including the retry path, whose recursive call attaches to
this very call's own registration. -/
theorem jsonRequestGo_registered (oracle : Nat → FetchOutcome)
    (endpoint method : String) (body : Option Nat)
    (rA rD now fuel rc : Nat) (cache : Cache) (pending : List String)
    (hmiss : (jsonLookup method now cache
      (getCacheKey endpoint method body)).1 = none)
    (hp : pending.contains (getCacheKey endpoint method body) = false) :
    ∃ out dl c2,
      jsonRequestGo oracle endpoint method body rA rD now (fuel + 1) rc
          cache pending = ⟨out, 1, dl, 1, c2, pending⟩ := by
  set K := getCacheKey endpoint method body with hK
  have hp1 : (pending ++ [K]).contains K = true := contains_append_self _ _
  have herase : (pending ++ [K]).erase K = pending :=
    erase_append_self _ _ hp
  have hinner := jsonRequestGo_attached oracle endpoint method body rA rD
    now fuel (rc + 1) (jsonLookup method now cache K).2 (pending ++ [K])
    (jsonLookup_miss_again method now cache _ hmiss) hp1
  rw [jsonRequestGo]
  simp only [← hK, hmiss, hp, Bool.false_eq_true, if_false]
  cases horacle : oracle rc with
  | abort =>
    by_cases hr : rc < rA
    · exact ⟨.hung, [rD * 2 ^ rc],
        (jsonLookup method now (jsonLookup method now cache K).2 K).2,
        by simp [hr, hinner, retryCombine, herase]⟩
    · exact ⟨.thrown (.apiError 408 ERROR_MESSAGES_TIMEOUT), [],
        (jsonLookup method now cache K).2, by simp [hr, herase]⟩
  | typeError m =>
    by_cases hr : rc < rA
    · exact ⟨.hung, [rD * 2 ^ rc],
        (jsonLookup method now (jsonLookup method now cache K).2 K).2,
        by simp [hr, hinner, retryCombine, herase]⟩
    · exact ⟨.thrown (.typeError m), [],
        (jsonLookup method now cache K).2, by simp [hr, herase]⟩
  | response s errText jOk d =>
    by_cases hok : response_ok s = true
    · by_cases hj : jOk = true
      · exact ⟨.value d, [],
          (if method == "GET"
            then setCachedResponse now (jsonLookup method now cache K).2 K d
            else (jsonLookup method now cache K).2),
          by simp only [hok, hj, if_true]; rw [herase]⟩
      · exact ⟨.thrown .invalidJson, [],
          (jsonLookup method now cache K).2,
          by simp only [hok, if_true, hj, Bool.false_eq_true, if_false]
             rw [herase]⟩
    · by_cases hr : 500 ≤ s ∧ rc < rA
      · exact ⟨.hung, [rD * 2 ^ rc],
          (jsonLookup method now (jsonLookup method now cache K).2 K).2,
          by simp [hok, hr, hinner, retryCombine, herase]⟩
      · exact ⟨.thrown (.apiError s (jsonErrorMessage jOk errText)), [],
          (jsonLookup method now cache K).2, by simp [hok, hr, herase]⟩

/-! ### Concrete oracles used by counterexamples and witnesses -/

/-- Every attempt yields HTTP 500 with a parseable error body. -/
def oracleAllServerError : Nat → FetchOutcome :=
  fun _ => .response 500 "boom" true 0

/-- Every attempt yields HTTP 404. -/
def oracleAllNotFound : Nat → FetchOutcome :=
  fun _ => .response 404 "nf" true 0

/-- Every attempt is aborted by the timeout signal. -/
def oracleAllAbort : Nat → FetchOutcome := fun _ => .abort

/-- Every attempt succeeds with payload 42. -/
def oracleAllOk : Nat → FetchOutcome := fun _ => .response 200 "" true 42

/-! ### C5 — the error classifier -/

/-- C5, counterexample.  The claim says every HTTP status ≥ 500 maps to
`ServerError` and every non-abort transport failure maps to `Network`.
Both parts fail on the code: status 504 (which is ≥ 500) classifies as
`TIMEOUT`, and `handleAPIError` classifies a transport failure as
`NETWORK` only when its message is exactly `'fetch failed'` — a browser
`TypeError` with message `'Failed to fetch'` is returned unclassified. -/
theorem c5_counterexample :
    (500 ≤ 504 ∧ classifyStatus 504 ≠ ErrType.SERVER_ERROR)
    ∧ handleAPIError (JsError.typeError "Failed to fetch")
        = Except.ok (JsError.typeError "Failed to fetch") :=
  ⟨⟨by omega, by decide⟩, by decide⟩

/-- C5, amended.  The classifier maps an abort signal to Timeout; a
transport failure carrying the runtime's `'fetch failed'` message to
Network, while any other non-abort error is returned unchanged without
classification; HTTP 404 to NotFound; HTTP 408 and 504 to Timeout; and
every other HTTP status ≥ 500 to ServerError. -/
theorem c5_classifier :
    handleAPIError JsError.abortError
        = .error (.apiError ⟨"Request timeout", .TIMEOUT, none⟩)
    ∧ handleAPIError (JsError.typeError "fetch failed")
        = .error (.apiError
            ⟨"Network error - Unable to connect to API", .NETWORK, none⟩)
    ∧ (∀ m : String, m ≠ "fetch failed" →
        handleAPIError (JsError.typeError m) = .ok (.typeError m))
    ∧ classifyStatus 404 = .NOT_FOUND
    ∧ classifyStatus 408 = .TIMEOUT
    ∧ classifyStatus 504 = .TIMEOUT
    ∧ (∀ s : Nat, 500 ≤ s → s ≠ 504 → classifyStatus s = .SERVER_ERROR) := by
  refine ⟨by decide, by decide, ?_, rfl, rfl, rfl, ?_⟩
  · intro m hm
    simp [handleAPIError, jsName, jsMessage, hm]
  · intro s h5 h504
    unfold classifyStatus
    split <;> first | rfl | omega

/-- C5, witness for the amended theorem at concrete inputs. -/
theorem c5_witness :
    handleAPIError (JsError.typeError "Failed to fetch")
        = .ok (.typeError "Failed to fetch")
    ∧ classifyStatus 502 = ErrType.SERVER_ERROR :=
  ⟨c5_classifier.2.2.1 "Failed to fetch" (by decide),
   c5_classifier.2.2.2.2.2.2 502 (by omega) (by omega)⟩

/-! ### C7 — cache TTL -/

/-- C7.  A GET response stored at `e.timestamp` is returned from the cache
(without any network call, leaving the cache unchanged) by any lookup at
time `t < timestamp + CACHE_TTL`, and any lookup at `t ≥ timestamp +
CACHE_TTL` misses, removes the expired entry from the store, and — when
the identity is not already pending — triggers exactly one fresh network
call. -/
theorem c7_cache_ttl (oracle : Nat → FetchOutcome) (endpoint : String)
    (body : Option Nat) (rA rD t fuel rc : Nat) (cache : Cache)
    (pending : List String) (e : CacheEntry)
    (hfind : mapGet cache (getCacheKey endpoint "GET" body) = some e)
    (ht0 : e.timestamp ≤ t) :
    (t < e.timestamp + CACHE_TTL →
      getCachedResponse t cache (getCacheKey endpoint "GET" body)
          = (some e.response, cache)
      ∧ jsonRequestGo oracle endpoint "GET" body rA rD t fuel rc cache
          pending = ⟨.value e.response, 0, [], 0, cache, pending⟩)
    ∧ (e.timestamp + CACHE_TTL ≤ t →
      getCachedResponse t cache (getCacheKey endpoint "GET" body)
          = (none, mapDelete cache (getCacheKey endpoint "GET" body))
      ∧ mapGet (mapDelete cache (getCacheKey endpoint "GET" body))
          (getCacheKey endpoint "GET" body) = none
      ∧ (pending.contains (getCacheKey endpoint "GET" body) = false →
        (jsonRequestGo oracle endpoint "GET" body rA rD t (fuel + 1) rc
          cache pending).calls = 1)) := by
  constructor
  · intro ht
    have hhit : getCachedResponse t cache (getCacheKey endpoint "GET" body)
        = (some e.response, cache) := by
      unfold getCachedResponse
      simp only [hfind]
      rw [if_pos (show t - e.timestamp < CACHE_TTL by omega)]
    refine ⟨hhit, ?_⟩
    rw [jsonRequestGo]
    simp only [jsonLookup, hhit]
    rfl
  · intro ht
    have hmiss : getCachedResponse t cache (getCacheKey endpoint "GET" body)
        = (none, mapDelete cache (getCacheKey endpoint "GET" body)) := by
      unfold getCachedResponse
      simp only [hfind]
      rw [if_neg (show ¬(t - e.timestamp < CACHE_TTL) by omega)]
    refine ⟨hmiss, mapGet_mapDelete _ _, ?_⟩
    intro hp
    have hm : (jsonLookup "GET" t cache
        (getCacheKey endpoint "GET" body)).1 = none := by
      simp [jsonLookup, hmiss]
    obtain ⟨out, dl, c2, heq⟩ := jsonRequestGo_registered oracle endpoint
      "GET" body rA rD t fuel rc cache pending hm hp
    rw [heq]

/-- C7, witness: a concrete entry stored at time 100 is served from the
cache at time 100 and is expired and evicted at time 6000. -/
theorem c7_witness :
    getCachedResponse 100 [("GET:/h:", ⟨42, 100⟩)] "GET:/h:"
        = (some 42, [("GET:/h:", ⟨42, 100⟩)])
    ∧ getCachedResponse 6000 [("GET:/h:", ⟨42, 100⟩)] "GET:/h:"
        = (none, mapDelete [("GET:/h:", ⟨42, 100⟩)] "GET:/h:") :=
  ⟨((c7_cache_ttl oracleAllOk "/h" none 0 0 100 0 0
      [("GET:/h:", ⟨42, 100⟩)] [] ⟨42, 100⟩ rfl (by decide)).1
      (by decide)).1,
   ((c7_cache_ttl oracleAllOk "/h" none 0 0 6000 0 0
      [("GET:/h:", ⟨42, 100⟩)] [] ⟨42, 100⟩ rfl (by decide)).2
      (by decide)).1⟩

/-! ### C8 — bounded cache with FIFO eviction -/

/-- A concrete 100-entry cache used by the C8 witness. -/
def cache100 : Cache :=
  (List.range 100).map (fun i => (toString i, ⟨i, 0⟩))

/-- A concrete 100-entry memory cache used by the C8 witness. -/
def memcache100 : JsMap Nat :=
  (List.range 100).map (fun i => (toString i, i))

/-- C8.  (a) `setCachedResponse` never leaves the response cache with more
than 100 (= `maxEntries`) entries; (b) inserting a 101st distinct identity
into a full cache evicts exactly the single first-inserted entry, leaving
every other entry in place, in order, with the new entry appended —
insertion-order (FIFO) eviction; (c) `createMemoryCache(100).set` evicts
exactly the first-inserted entry likewise.  Reading an entry does not
reorder the list (the hit path of `getCachedResponse` leaves the cache
untouched, see the C7 theorem), so a read offers no protection from
eviction. -/
theorem c8_fifo_eviction (now : Nat) (cache : Cache) (key : String)
    (d : Nat) (m : JsMap Nat) (k2 : String) (v2 : Nat)
    (hlen : cache.length = 100)
    (hnodup : (cache.map Prod.fst).Nodup)
    (hfresh : mapGet cache key = none)
    (hmlen : m.length = 100)
    (hmnodup : (m.map Prod.fst).Nodup)
    (hmfresh : mapGet m k2 = none) :
    (∀ (c : Cache) (k : String) (v : Nat), c.length ≤ 100 →
      (setCachedResponse now c k v).length ≤ 100)
    ∧ setCachedResponse now cache key d = cache.tail ++ [(key, ⟨d, now⟩)]
    ∧ (setCachedResponse now cache key d).length = 100
    ∧ memoryCacheSet 100 m k2 v2 = m.tail ++ [(k2, v2)] := by
  have hbound : ∀ (c : Cache) (k : String) (v : Nat), c.length ≤ 100 →
      (setCachedResponse now c k v).length ≤ 100 := by
    intro c k v hle
    unfold setCachedResponse
    rcases mapSet_length c k ⟨v, now⟩ with h | h
    · rw [if_neg (by omega)]
      omega
    · by_cases hgt : (mapSet c k ⟨v, now⟩).length > 100
      · rw [if_pos hgt]
        cases hc : mapSet c k ⟨v, now⟩ with
        | nil => rw [hc] at hgt; simp at hgt
        | cons p tl =>
          rw [hc] at h
          simp only [List.head?_cons]
          have h1 := mapDelete_cons_head_le p tl
          have h2 : (p :: tl).length = tl.length + 1 := by simp
          omega
      · rw [if_neg hgt]
        omega
  have hevict : setCachedResponse now cache key d
      = cache.tail ++ [(key, ⟨d, now⟩)] := by
    have hKne : ∀ q ∈ cache, q.1 ≠ key :=
      (mapGet_eq_none_iff cache key).mp hfresh
    have hset : mapSet cache key ⟨d, now⟩ = cache ++ [(key, ⟨d, now⟩)] :=
      mapSet_of_get_none _ _ _ hfresh
    cases cache with
    | nil => simp at hlen
    | cons p tl =>
      obtain ⟨x, v⟩ := p
      have hscons := hnodup
      simp only [List.map_cons] at hscons
      have hx : x ∉ tl.map Prod.fst := (List.nodup_cons.mp hscons).1
      have hne : ∀ q ∈ tl ++ [((key : String), (⟨d, now⟩ : CacheEntry))],
          q.1 ≠ x := by
        intro q hq
        rcases List.mem_append.mp hq with hq | hq
        · exact fun he => hx (he ▸ List.mem_map_of_mem Prod.fst hq)
        · have hq2 : q = (key, ⟨d, now⟩) := by simpa using hq
          subst hq2
          exact fun he => hKne (x, v) (List.mem_cons_self _ _) he.symm
      have hdel := mapDelete_cons_of_not_mem x v
        (tl ++ [((key : String), (⟨d, now⟩ : CacheEntry))]) hne
      unfold setCachedResponse
      rw [hset]
      rw [if_pos (by simp at hlen ⊢; omega)]
      simp only [List.cons_append, List.head?_cons]
      rw [hdel]
      simp
  refine ⟨hbound, hevict, ?_, ?_⟩
  · rw [hevict]
    cases cache with
    | nil => simp at hlen
    | cons p tl => simp at hlen ⊢; omega
  · have hKne : ∀ q ∈ m, q.1 ≠ k2 := (mapGet_eq_none_iff m k2).mp hmfresh
    cases m with
    | nil => simp at hmlen
    | cons p tl =>
      obtain ⟨x, v⟩ := p
      have hscons := hmnodup
      simp only [List.map_cons] at hscons
      have hx : x ∉ tl.map Prod.fst := (List.nodup_cons.mp hscons).1
      have hne : ∀ q ∈ tl, q.1 ≠ x :=
        fun q hq he => hx (he ▸ List.mem_map_of_mem Prod.fst hq)
      have hdel := mapDelete_cons_of_not_mem x v tl hne
      have htl : mapGet tl k2 = none := (mapGet_eq_none_iff tl k2).mpr
        (fun q hq => hKne q (List.mem_cons_of_mem _ hq))
      unfold memoryCacheSet
      rw [if_pos (by simp at hmlen ⊢; omega)]
      simp only [List.head?_cons]
      rw [hdel, mapSet_of_get_none _ _ _ htl]
      simp

/-- C8, witness: inserting a fresh 101st identity into a concrete full
cache drops exactly the first-inserted entry. -/
theorem c8_witness :
    setCachedResponse 7 cache100 "new" 5
        = cache100.tail ++ [("new", ⟨5, 7⟩)] :=
  (c8_fifo_eviction 7 cache100 "new" 5 memcache100 "neww" 3
    (by decide) (by decide) (by decide)
    (by decide) (by decide) (by decide)).2.1

/-! ### C1 — request deduplication -/

/-- C1.  (a) A `request` call made while a request with the same identity
is still pending (and whose cache consultation misses, the only state
reachable while a registration is outstanding) returns the existing
pending promise: no network call is made, nothing is released, and the
pending map is untouched.  (b) A call that registers a new pending request
deletes its registration exactly once (the `finally` block), whether the
attempt settles with a value, with a thrown error, or enters the broken
retry path: the pending map afterwards is exactly the one it started from,
and exactly one network call was issued. -/
theorem c1_dedup_single_flight (oracle : Nat → FetchOutcome)
    (endpoint method : String) (body : Option Nat)
    (rA rD now fuel rc : Nat) (cache : Cache) (pending : List String)
    (hmiss : (jsonLookup method now cache
      (getCacheKey endpoint method body)).1 = none) :
    (pending.contains (getCacheKey endpoint method body) = true →
      jsonRequestGo oracle endpoint method body rA rD now fuel rc cache
          pending
        = ⟨.attached, 0, [], 0,
            (jsonLookup method now cache
              (getCacheKey endpoint method body)).2, pending⟩)
    ∧ (pending.contains (getCacheKey endpoint method body) = false →
      (jsonRequestGo oracle endpoint method body rA rD now (fuel + 1) rc
          cache pending).releases = 1
      ∧ (jsonRequestGo oracle endpoint method body rA rD now (fuel + 1) rc
          cache pending).pending = pending
      ∧ (jsonRequestGo oracle endpoint method body rA rD now (fuel + 1) rc
          cache pending).calls = 1) := by
  constructor
  · intro hp
    exact jsonRequestGo_attached oracle endpoint method body rA rD now fuel
      rc cache pending hmiss hp
  · intro hp
    obtain ⟨out, dl, c2, heq⟩ := jsonRequestGo_registered oracle endpoint
      method body rA rD now fuel rc cache pending hmiss hp
    rw [heq]
    exact ⟨rfl, rfl, rfl⟩

/-- C1, witness: a duplicate of a pending POST attaches without a network
call; a freshly registered POST releases its registration exactly once. -/
theorem c1_witness :
    jsonRequestGo oracleAllOk "/login" "POST" none 2 1000 0 3 0 []
        ["POST:/login:"]
      = ⟨.attached, 0, [], 0, [], ["POST:/login:"]⟩
    ∧ (jsonRequestGo oracleAllOk "/login" "POST" none 2 1000 0 4 0 []
        []).releases = 1 :=
  ⟨(c1_dedup_single_flight oracleAllOk "/login" "POST" none 2 1000 0 3 0
      [] ["POST:/login:"] rfl).1 (by decide),
   ((c1_dedup_single_flight oracleAllOk "/login" "POST" none 2 1000 0 3 0
      [] [] rfl).2 (by decide)).1⟩

/-! ### C2 — retry ceiling on all-ServerError runs -/

/-- C2, evaluation at the failing input.  `clientRequest` with `retries =
2` and every attempt answering HTTP 500 does behave as the claim says:
3 network calls, then the last classified ServerError is surfaced.  But
`JsonApiClient.request` (the other path the claim covers), run with its
configured `RETRY_ATTEMPTS = 3` and `RETRY_DELAY = 1000` (the live
`API_CONFIG` in `src/hooks/useAuth.js`) on the same all-500 oracle, makes
exactly ONE network call and then hangs forever: its retry recursion
re-enters the dedup check while its own key is still registered, returns
its own pending promise, and the two promises adopt each other, so no
error is ever surfaced and no further attempt is made. -/
theorem c2_retry_ceiling_bug :
    (jsonRequestGo oracleAllServerError "/p" "POST" none
        API_CONFIG_RETRY_ATTEMPTS API_CONFIG_RETRY_DELAY 0 5 0 []
        []).outcome = .hung
    ∧ (jsonRequestGo oracleAllServerError "/p" "POST" none
        API_CONFIG_RETRY_ATTEMPTS API_CONFIG_RETRY_DELAY 0 5 0 []
        []).calls = 1
    ∧ (clientRequestRun oracleAllServerError 2).callLog.length = 3
    ∧ (clientRequestRun oracleAllServerError 2).result
      = .error (.apiError ⟨"HTTP 500: boom", .SERVER_ERROR, some 500⟩) :=
  ⟨by decide, by decide, by decide, by decide⟩

/-! ### C10 — mutating methods bypass the cache -/

/-- Helper: for a non-GET method, a `JsonApiClient.request` run never
reads the cache (its whole trace is the same for every starting cache)
and never writes it (the final cache is the starting cache). -/
theorem jsonRequestGo_non_get (oracle : Nat → FetchOutcome)
    (endpoint method : String) (body : Option Nat) (rA rD now : Nat)
    (hm : (method == "GET") = false) :
    ∀ (fuel rc : Nat) (pending : List String),
      ∃ out calls dl rel pend, ∀ cache : Cache,
        jsonRequestGo oracle endpoint method body rA rD now fuel rc cache
          pending = ⟨out, calls, dl, rel, cache, pend⟩ := by
  intro fuel
  set K := getCacheKey endpoint method body with hK
  induction fuel with
  | zero =>
    intro rc pending
    by_cases hp : K ∈ pending
    · exact ⟨.attached, 0, [], 0, pending, fun cache => by
        rw [jsonRequestGo]; simp [← hK, jsonLookup, hm, hp]⟩
    · exact ⟨.stuck, 0, [], 0, pending ++ [K], fun cache => by
        rw [jsonRequestGo]; simp [← hK, jsonLookup, hm, hp]⟩
  | succ f ih =>
    intro rc pending
    by_cases hp : K ∈ pending
    · exact ⟨.attached, 0, [], 0, pending, fun cache => by
        rw [jsonRequestGo]; simp [← hK, jsonLookup, hm, hp]⟩
    · have hpb : pending.contains K = false := by simpa using hp
      cases horacle : oracle rc with
      | abort =>
        by_cases hr : rc < rA
        · obtain ⟨out, calls, dl, rel, pend, hin⟩ := ih (rc + 1)
            (pending ++ [K])
          exact ⟨(if out = .attached then .hung else out), 1 + calls,
            rD * 2 ^ rc :: dl, rel + 1, pend.erase K, fun cache => by
              rw [jsonRequestGo]
              simp only [← hK, jsonLookup, hm, Bool.false_eq_true, if_false,
                hpb, horacle, hr, if_true]
              rw [hin cache]
              simp [retryCombine]⟩
        · exact ⟨.thrown (.apiError 408 ERROR_MESSAGES_TIMEOUT), 1, [], 1,
            (pending ++ [K]).erase K, fun cache => by
              rw [jsonRequestGo]
              simp [← hK, jsonLookup, hm, hp, horacle, hr]⟩
      | typeError msg =>
        by_cases hr : rc < rA
        · obtain ⟨out, calls, dl, rel, pend, hin⟩ := ih (rc + 1)
            (pending ++ [K])
          exact ⟨(if out = .attached then .hung else out), 1 + calls,
            rD * 2 ^ rc :: dl, rel + 1, pend.erase K, fun cache => by
              rw [jsonRequestGo]
              simp only [← hK, jsonLookup, hm, Bool.false_eq_true, if_false,
                hpb, horacle, hr, if_true]
              rw [hin cache]
              simp [retryCombine]⟩
        · exact ⟨.thrown (.typeError msg), 1, [], 1,
            (pending ++ [K]).erase K, fun cache => by
              rw [jsonRequestGo]
              simp [← hK, jsonLookup, hm, hp, horacle, hr]⟩
      | response st errText jOk d =>
        by_cases hok : response_ok st = true
        · by_cases hj : jOk = true
          · exact ⟨.value d, 1, [], 1, (pending ++ [K]).erase K,
              fun cache => by
                rw [jsonRequestGo]
                simp [← hK, jsonLookup, hm, hp, horacle, hok, hj]⟩
          · exact ⟨.thrown .invalidJson, 1, [], 1,
              (pending ++ [K]).erase K, fun cache => by
                rw [jsonRequestGo]
                simp [← hK, jsonLookup, hm, hp, horacle, hok, hj]⟩
        · by_cases hr : 500 ≤ st ∧ rc < rA
          · obtain ⟨out, calls, dl, rel, pend, hin⟩ := ih (rc + 1)
              (pending ++ [K])
            exact ⟨(if out = .attached then .hung else out), 1 + calls,
              rD * 2 ^ rc :: dl, rel + 1, pend.erase K, fun cache => by
                rw [jsonRequestGo]
                simp only [← hK, jsonLookup, hm, Bool.false_eq_true,
                  if_false, hpb, horacle, hok, hr, if_true]
                rw [hin cache]
                simp [retryCombine]⟩
          · exact ⟨.thrown (.apiError st (jsonErrorMessage jOk errText)),
              1, [], 1, (pending ++ [K]).erase K, fun cache => by
                rw [jsonRequestGo]
                simp [← hK, jsonLookup, hm, hp, horacle, hok, hr]⟩

/-- C10.  A request with a non-GET method never writes to the response
cache (the final cache equals the starting cache), never reads from it
(outcome, network-call count and delays are identical for any two starting
caches), and — if its identity is not already pending — performs its own
single network call. -/
theorem c10_mutation_bypass (oracle : Nat → FetchOutcome)
    (endpoint method : String) (body : Option Nat)
    (rA rD now fuel rc : Nat) (cache cache2 : Cache)
    (pending : List String) (hm : method ≠ "GET") :
    (jsonRequestGo oracle endpoint method body rA rD now fuel rc cache
        pending).cache = cache
    ∧ (jsonRequestGo oracle endpoint method body rA rD now fuel rc cache
        pending).outcome
      = (jsonRequestGo oracle endpoint method body rA rD now fuel rc cache2
        pending).outcome
    ∧ (jsonRequestGo oracle endpoint method body rA rD now fuel rc cache
        pending).calls
      = (jsonRequestGo oracle endpoint method body rA rD now fuel rc cache2
        pending).calls
    ∧ (jsonRequestGo oracle endpoint method body rA rD now fuel rc cache
        pending).delays
      = (jsonRequestGo oracle endpoint method body rA rD now fuel rc cache2
        pending).delays
    ∧ (pending.contains (getCacheKey endpoint method body) = false →
      (jsonRequestGo oracle endpoint method body rA rD now (fuel + 1) rc
        cache pending).calls = 1) := by
  have hmb : (method == "GET") = false := beq_eq_false_iff_ne.mpr hm
  obtain ⟨out, calls, dl, rel, pend, h⟩ :=
    jsonRequestGo_non_get oracle endpoint method body rA rD now hmb fuel
      rc pending
  refine ⟨?_, ?_, ?_, ?_, ?_⟩
  · rw [h cache]
  · rw [h cache, h cache2]
  · rw [h cache, h cache2]
  · rw [h cache, h cache2]
  · intro hp
    obtain ⟨o2, d2, c2, heq⟩ := jsonRequestGo_registered oracle endpoint
      method body rA rD now fuel rc cache pending
      (by simp [jsonLookup, hmb]) hp
    rw [heq]

/-- C10, witness: a POST to an endpoint whose GET result is cached leaves
the GET entry untouched and performs its own network call. -/
theorem c10_witness :
    (jsonRequestGo oracleAllOk "/a" "POST" none 2 1000 0 4 0
        [("GET:/a:", ⟨9, 0⟩)] []).cache = [("GET:/a:", ⟨9, 0⟩)]
    ∧ (jsonRequestGo oracleAllOk "/a" "POST" none 2 1000 0 4 0
        [("GET:/a:", ⟨9, 0⟩)] []).calls = 1 :=
  ⟨(c10_mutation_bypass oracleAllOk "/a" "POST" none 2 1000 0 4 0
      [("GET:/a:", ⟨9, 0⟩)] [] [] (by decide)).1,
   (c10_mutation_bypass oracleAllOk "/a" "POST" none 2 1000 0 3 0
      [("GET:/a:", ⟨9, 0⟩)] [] [] (by decide)).2.2.2.2 (by decide)⟩

/-! ### Structural lemmas about the `clientRequest`/`serverRequest` loops -/

theorem string_data_append (a b : String) :
    (a ++ b).data = a.data ++ b.data := by
  cases a
  cases b
  rfl

/-- The `HTTP <status>: <body>` message built by `handleResponse` can never
be the transport message `'fetch failed'` that `handleAPIError` tests for
(their first characters already differ). -/
theorem http_msg_ne_fetch_failed (s : Nat) (et : String) :
    ("HTTP " ++ toString s ++ ": " ++ et) ≠ "fetch failed" := by
  intro h
  have hd : ("HTTP " ++ toString s ++ ": " ++ et).data
      = ("fetch failed").data := by rw [h]
  rw [string_data_append, string_data_append, string_data_append] at hd
  injection hd with h1 h2
  exact absurd h1 (by decide)

/-- A non-ok HTTP response at attempt `a` with retries remaining takes the
retry branch of `clientRequest`: the error returned by `handleAPIError`
reaches the last-attempt check, and the loop recurses after the backoff
delay. -/
theorem clientRequestGo_fail_step (oracle : Nat → FetchOutcome)
    (r a : Nat) (timer : Bool) (s : Nat) (et : String) (jOk : Bool)
    (d : Nat) (hor : oracle a = .response s et jOk d)
    (hok : response_ok s = false) :
    clientRequestGo oracle (r + 1) a timer
      = ⟨(clientRequestGo oracle r (a + 1) false).result,
         (a, timer) :: (clientRequestGo oracle r (a + 1) false).callLog,
         calculateRetryDelay a 3000 ::
           (clientRequestGo oracle r (a + 1) false).delays⟩ := by
  have h1 : attemptOutcome (oracle a)
      = .error (.apiError ⟨"HTTP " ++ toString s ++ ": " ++ et,
          classifyStatus s, some s⟩) := by
    rw [hor]
    simp [attemptOutcome, handleResponse, hok]
  have h2 : clientRequestGo.handleAPIErrorStep
      (attemptOutcome (oracle a))
      = .inr (.apiError ⟨"HTTP " ++ toString s ++ ": " ++ et,
          classifyStatus s, some s⟩) := by
    rw [h1]
    simp only [clientRequestGo.handleAPIErrorStep, handleAPIError, jsName,
      jsMessage]
    rw [if_neg (by decide), if_neg (http_msg_ne_fetch_failed s et)]
  rw [clientRequestGo, h2]

/-- Same for `serverRequest`, provided the classified type is not
`NOT_FOUND` (otherwise the `Don't retry 404s` check fires). -/
theorem serverRequestGo_fail_step (oracle : Nat → FetchOutcome)
    (r a : Nat) (timer : Bool) (s : Nat) (et : String) (jOk : Bool)
    (d : Nat) (hor : oracle a = .response s et jOk d)
    (hok : response_ok s = false)
    (hnf : classifyStatus s ≠ .NOT_FOUND) :
    serverRequestGo oracle (r + 1) a timer
      = ⟨(serverRequestGo oracle r (a + 1) false).result,
         (a, timer) :: (serverRequestGo oracle r (a + 1) false).callLog,
         calculateRetryDelay a 5000 ::
           (serverRequestGo oracle r (a + 1) false).delays⟩ := by
  have h1 : attemptOutcome (oracle a)
      = .error (.apiError ⟨"HTTP " ++ toString s ++ ": " ++ et,
          classifyStatus s, some s⟩) := by
    rw [hor]
    simp [attemptOutcome, handleResponse, hok]
  have h2 : serverRequestGo.serverStep (attemptOutcome (oracle a))
      = .inr (.apiError ⟨"HTTP " ++ toString s ++ ": " ++ et,
          classifyStatus s, some s⟩) := by
    rw [h1]
    simp only [serverRequestGo.serverStep, handleAPIError, jsName,
      jsMessage]
    rw [if_neg (by decide), if_neg (http_msg_ne_fetch_failed s et)]
    simp [isNotFoundAPIError, hnf]
  rw [serverRequestGo, h2]

/-- An abort rejection surfaces immediately from `clientRequest`, whatever
the attempt number and however many retries remain: `handleAPIError`
throws the classified Timeout `APIError` out of the loop. -/
theorem clientRequestGo_abort (oracle : Nat → FetchOutcome)
    (r a : Nat) (timer : Bool) (hor : oracle a = .abort) :
    clientRequestGo oracle r a timer
      = ⟨.error (.apiError ⟨"Request timeout", .TIMEOUT, none⟩),
         [(a, timer)], []⟩ := by
  have h2 : clientRequestGo.handleAPIErrorStep (attemptOutcome (oracle a))
      = .inl (.error (.apiError ⟨"Request timeout", .TIMEOUT, none⟩)) := by
    rw [hor]
    simp [attemptOutcome, clientRequestGo.handleAPIErrorStep,
      handleAPIError, jsName]
  rw [clientRequestGo, h2]

/-- Same for `serverRequest`. -/
theorem serverRequestGo_abort (oracle : Nat → FetchOutcome)
    (r a : Nat) (timer : Bool) (hor : oracle a = .abort) :
    serverRequestGo oracle r a timer
      = ⟨.error (.apiError ⟨"Request timeout", .TIMEOUT, none⟩),
         [(a, timer)], []⟩ := by
  have h2 : serverRequestGo.serverStep (attemptOutcome (oracle a))
      = .inl (.error (.apiError ⟨"Request timeout", .TIMEOUT, none⟩)) := by
    rw [hor]
    simp [attemptOutcome, serverRequestGo.serverStep, handleAPIError,
      jsName]
  rw [serverRequestGo, h2]

/-- Every `clientRequest` run logs its first network call as attempt `a`
with the timer state it started with, and every later call with the timer
cleared. -/
theorem clientRequestGo_callLog_shape (oracle : Nat → FetchOutcome) :
    ∀ (r a : Nat) (timer : Bool), ∃ rest,
      (clientRequestGo oracle r a timer).callLog = (a, timer) :: rest
      ∧ ∀ x ∈ rest, x.2 = false := by
  intro r
  induction r with
  | zero =>
    intro a timer
    rw [clientRequestGo]
    cases hstep : clientRequestGo.handleAPIErrorStep
        (attemptOutcome (oracle a)) with
    | inl done => exact ⟨[], rfl, by simp⟩
    | inr e => exact ⟨[], rfl, by simp⟩
  | succ r' ih =>
    intro a timer
    rw [clientRequestGo]
    cases hstep : clientRequestGo.handleAPIErrorStep
        (attemptOutcome (oracle a)) with
    | inl done => exact ⟨[], rfl, by simp⟩
    | inr e =>
      obtain ⟨rest, hrest, hall⟩ := ih (a + 1) false
      refine ⟨(a + 1, false) :: rest, ?_, ?_⟩
      · simp only [hrest]
      · intro x hx
        rcases List.mem_cons.mp hx with hx | hx
        · rw [hx]
        · exact hall x hx

/-- Same for `serverRequest`. -/
theorem serverRequestGo_callLog_shape (oracle : Nat → FetchOutcome) :
    ∀ (r a : Nat) (timer : Bool), ∃ rest,
      (serverRequestGo oracle r a timer).callLog = (a, timer) :: rest
      ∧ ∀ x ∈ rest, x.2 = false := by
  intro r
  induction r with
  | zero =>
    intro a timer
    rw [serverRequestGo]
    cases hstep : serverRequestGo.serverStep (attemptOutcome (oracle a)) with
    | inl done => exact ⟨[], rfl, by simp⟩
    | inr e => exact ⟨[], rfl, by simp⟩
  | succ r' ih =>
    intro a timer
    rw [serverRequestGo]
    cases hstep : serverRequestGo.serverStep (attemptOutcome (oracle a)) with
    | inl done => exact ⟨[], rfl, by simp⟩
    | inr e =>
      obtain ⟨rest, hrest, hall⟩ := ih (a + 1) false
      refine ⟨(a + 1, false) :: rest, ?_, ?_⟩
      · simp only [hrest]
      · intro x hx
        rcases List.mem_cons.mp hx with hx | hx
        · rw [hx]
        · exact hall x hx

/-- Every run makes at least one network call. -/
theorem clientRequestGo_callLog_pos (oracle : Nat → FetchOutcome)
    (r a : Nat) (timer : Bool) :
    1 ≤ (clientRequestGo oracle r a timer).callLog.length := by
  obtain ⟨rest, hrest, _⟩ := clientRequestGo_callLog_shape oracle r a timer
  rw [hrest]
  simp

/-- Every recorded backoff delay of a `clientRequest` run obeys the
formula `calculateRetryDelay` with the client's 3000 ms ceiling: the k-th
recorded delay (counting from the run's first attempt `a`) is
`min(1000 · 2^(a+k), 3000)`. -/
theorem clientRequestGo_delays (oracle : Nat → FetchOutcome)
    (r : Nat) : ∀ (a : Nat) (timer : Bool) (k dk : Nat),
    (clientRequestGo oracle r a timer).delays.get? k = some dk →
    dk = calculateRetryDelay (a + k) 3000 := by
  induction r with
  | zero =>
    intro a timer k dk h
    rw [clientRequestGo] at h
    cases hstep : clientRequestGo.handleAPIErrorStep
        (attemptOutcome (oracle a)) with
    | inl done => rw [hstep] at h; simp at h
    | inr e => rw [hstep] at h; simp at h
  | succ r' ih =>
    intro a timer k dk h
    rw [clientRequestGo] at h
    cases hstep : clientRequestGo.handleAPIErrorStep
        (attemptOutcome (oracle a)) with
    | inl done => rw [hstep] at h; simp at h
    | inr e =>
      rw [hstep] at h
      cases k with
      | zero =>
        simp at h
        rw [Nat.add_zero]
        omega
      | succ k' =>
        simp only [List.get?_cons_succ] at h
        have := ih (a + 1) false k' dk h
        rw [this]
        congr 1
        omega

/-- Same for `serverRequest`, with the default 5000 ms ceiling. -/
theorem serverRequestGo_delays (oracle : Nat → FetchOutcome)
    (r : Nat) : ∀ (a : Nat) (timer : Bool) (k dk : Nat),
    (serverRequestGo oracle r a timer).delays.get? k = some dk →
    dk = calculateRetryDelay (a + k) 5000 := by
  induction r with
  | zero =>
    intro a timer k dk h
    rw [serverRequestGo] at h
    cases hstep : serverRequestGo.serverStep (attemptOutcome (oracle a)) with
    | inl done => rw [hstep] at h; simp at h
    | inr e => rw [hstep] at h; simp at h
  | succ r' ih =>
    intro a timer k dk h
    rw [serverRequestGo] at h
    cases hstep : serverRequestGo.serverStep (attemptOutcome (oracle a)) with
    | inl done => rw [hstep] at h; simp at h
    | inr e =>
      rw [hstep] at h
      cases k with
      | zero =>
        simp at h
        rw [Nat.add_zero]
        omega
      | succ k' =>
        simp only [List.get?_cons_succ] at h
        have := ih (a + 1) false k' dk h
        rw [this]
        congr 1
        omega

/-- If every attempt up to index `k` (relative to the starting attempt
`a`) yields a non-ok HTTP response, and at least `k+1` retries remain,
then the loop reaches attempt `a+k+1` — at least `k+2` network calls — and
the k-th recorded delay is exactly the backoff formula. -/
theorem clientRequestGo_all_fail (oracle : Nat → FetchOutcome) (k : Nat) :
    ∀ (r a : Nat) (timer : Bool),
      k < r →
      (∀ j, j ≤ k → ∃ s et jOk d, oracle (a + j) = .response s et jOk d
        ∧ response_ok s = false) →
      k + 2 ≤ (clientRequestGo oracle r a timer).callLog.length
      ∧ (clientRequestGo oracle r a timer).delays.get? k
        = some (calculateRetryDelay (a + k) 3000) := by
  induction k with
  | zero =>
    intro r a timer hk hall
    obtain ⟨s, et, jOk, d, hor, hok⟩ := hall 0 (le_refl 0)
    rw [Nat.add_zero] at hor
    cases r with
    | zero => omega
    | succ r' =>
      rw [clientRequestGo_fail_step oracle r' a timer s et jOk d hor hok]
      have hpos := clientRequestGo_callLog_pos oracle r' (a + 1) false
      constructor
      · simp only [List.length_cons]
        omega
      · simp
  | succ k' ih =>
    intro r a timer hk hall
    obtain ⟨s, et, jOk, d, hor, hok⟩ := hall 0 (by omega)
    rw [Nat.add_zero] at hor
    cases r with
    | zero => omega
    | succ r' =>
      rw [clientRequestGo_fail_step oracle r' a timer s et jOk d hor hok]
      have hall' : ∀ j, j ≤ k' → ∃ s et jOk d,
          oracle (a + 1 + j) = .response s et jOk d
          ∧ response_ok s = false := by
        intro j hj
        obtain ⟨s2, et2, jOk2, d2, h1, h2⟩ := hall (j + 1) (by omega)
        exact ⟨s2, et2, jOk2, d2,
          by rw [show a + 1 + j = a + (j + 1) from by omega]; exact h1, h2⟩
      obtain ⟨ih1, ih2⟩ := ih r' (a + 1) false (by omega) hall'
      constructor
      · simp only [List.length_cons]
        omega
      · simp only [List.get?_cons_succ]
        rw [ih2]
        congr 2
        omega

/-! ### C3 — NotFound and retries -/

/-- C3, counterexample.  The claim says a first-attempt HTTP 404 surfaces
NotFound immediately with exactly one network call on every request path.
On the browser-side `clientRequest` path (cited by the claim) a 404 is
retried like any other HTTP error: with the default `retries = 2`, an
all-404 oracle receives THREE network calls before NotFound surfaces. -/
theorem c3_counterexample :
    (clientRequestRun oracleAllNotFound 2).callLog.length = 3
    ∧ (clientRequestRun oracleAllNotFound 2).result
      = .error (.apiError ⟨"HTTP 404: nf", .NOT_FOUND, some 404⟩) :=
  ⟨by decide, by decide⟩

/-- C3, amended.  On the server-side path (`serverRequest`) a first-attempt
404 surfaces the classified NotFound `APIError` immediately with exactly
one network call, whatever the retry budget; `JsonApiClient.request`
likewise throws `ApiError(404)` after a single call without retrying.  The
browser-side `clientRequest` retries 404s (see the counterexample). -/
theorem c3_notfound_no_retry (oracle : Nat → FetchOutcome)
    (retries : Nat) (et : String) (jOk : Bool) (d : Nat)
    (endpoint method : String) (body : Option Nat)
    (rA rD now fuel : Nat) (cache : Cache) (pending : List String)
    (hor : oracle 0 = .response 404 et jOk d)
    (hmiss : (jsonLookup method now cache
      (getCacheKey endpoint method body)).1 = none)
    (hp : pending.contains (getCacheKey endpoint method body) = false) :
    (serverRequestRun oracle retries).callLog.length = 1
    ∧ (serverRequestRun oracle retries).result
      = .error (.apiError ⟨"HTTP " ++ toString 404 ++ ": " ++ et,
          .NOT_FOUND, some 404⟩)
    ∧ jsonRequestGo oracle endpoint method body rA rD now (fuel + 1) 0
        cache pending
      = ⟨.thrown (.apiError 404 (jsonErrorMessage jOk et)), 1, [], 1,
         (jsonLookup method now cache (getCacheKey endpoint method body)).2,
         pending⟩ := by
  have h1 : attemptOutcome (oracle 0)
      = .error (.apiError ⟨"HTTP " ++ toString 404 ++ ": " ++ et,
          .NOT_FOUND, some 404⟩) := by
    rw [hor]
    rfl
  have h2 : serverRequestGo.serverStep (attemptOutcome (oracle 0))
      = .inl (.error (.apiError ⟨"HTTP " ++ toString 404 ++ ": " ++ et,
          .NOT_FOUND, some 404⟩)) := by
    rw [h1]
    simp only [serverRequestGo.serverStep, handleAPIError, jsName,
      jsMessage]
    rw [if_neg (by decide), if_neg (http_msg_ne_fetch_failed 404 et)]
    simp [isNotFoundAPIError]
  refine ⟨?_, ?_, ?_⟩
  · rw [serverRequestRun, serverRequestGo, h2]
    rfl
  · rw [serverRequestRun, serverRequestGo, h2]
  · rw [jsonRequestGo]
    simp only [hmiss, hp, Bool.false_eq_true, if_false, hor]
    rw [if_neg (by decide : ¬response_ok 404 = true)]
    rw [if_neg (by omega : ¬(500 ≤ 404 ∧ 0 < rA))]
    rw [erase_append_self _ _ hp]

/-- C3, witness for the amended theorem at a concrete all-404 oracle. -/
theorem c3_witness :
    (serverRequestRun oracleAllNotFound 5).callLog.length = 1
    ∧ (jsonRequestGo oracleAllNotFound "/x" "POST" none 2 1000 0 4 0 []
        []).calls = 1 :=
  ⟨(c3_notfound_no_retry oracleAllNotFound 5 "nf" true 0 "/x" "POST" none
      2 1000 0 3 [] [] rfl rfl rfl).1,
   by rw [(c3_notfound_no_retry oracleAllNotFound 5 "nf" true 0 "/x" "POST"
      none 2 1000 0 3 [] [] rfl rfl rfl).2.2]⟩

/-! ### C4 — which failures get retried -/

/-- C4, counterexample.  The claim says a Timeout-classified failure
(abort) with `attemptNumber < maxAttempts` is retried.  On the cited
`clientRequest` path an abort at attempt 0 with `retries = 2` is NOT
retried: `handleAPIError` throws the classified Timeout `APIError` from
inside the catch block, which escapes the loop — one network call, error
surfaced immediately. -/
theorem c4_counterexample :
    (clientRequestRun oracleAllAbort 2).callLog.length = 1
    ∧ (clientRequestRun oracleAllAbort 2).result
      = .error (.apiError ⟨"Request timeout", .TIMEOUT, none⟩) :=
  ⟨by decide, by decide⟩

/-- C4, amended.  Retries do happen for failures whose classification is
derived from an HTTP status and RETURNED by `handleAPIError` — in
particular ServerError (status ≥ 500) and Timeout-by-status (408/504): if
every attempt up to `k < retries` yields such a response, the executor
performs attempt `k+1` (at least `k+2` network calls) after waiting
exactly the backoff delay.  Abort (Timeout) and transport (Network)
failures are instead thrown during classification and surface with no
retry (see the counterexample). -/
theorem c4_retry_on_retryable_status (oracle : Nat → FetchOutcome)
    (retries k : Nat) (hk : k < retries)
    (hall : ∀ j, j ≤ k → ∃ s et jOk d,
      oracle j = .response s et jOk d
      ∧ response_ok s = false
      ∧ (classifyStatus s = .SERVER_ERROR ∨ classifyStatus s = .TIMEOUT)) :
    k + 2 ≤ (clientRequestRun oracle retries).callLog.length
    ∧ (clientRequestRun oracle retries).delays.get? k
      = some (calculateRetryDelay k 3000) := by
  have hall' : ∀ j, j ≤ k → ∃ s et jOk d,
      oracle (0 + j) = .response s et jOk d ∧ response_ok s = false := by
    intro j hj
    obtain ⟨s, et, jOk, d, hh1, hh2, _⟩ := hall j hj
    exact ⟨s, et, jOk, d, by rwa [Nat.zero_add], hh2⟩
  have h := clientRequestGo_all_fail oracle k retries 0 true hk hall'
  rw [Nat.zero_add] at h
  unfold clientRequestRun
  exact h

/-- C4, witness: with an all-500 oracle and `retries = 2`, attempt 1 fails
and a second retry attempt is performed after the 2000 ms backoff. -/
theorem c4_witness :
    3 ≤ (clientRequestRun oracleAllServerError 2).callLog.length
    ∧ (clientRequestRun oracleAllServerError 2).delays.get? 1
      = some (calculateRetryDelay 1 3000) :=
  c4_retry_on_retryable_status oracleAllServerError 2 1 (by omega)
    (fun j hj => ⟨500, "boom", true, 0, rfl, by decide, Or.inl (by decide)⟩)

/-! ### C6 — cancellation scope per attempt -/

/-- C6, counterexample.  The claim says every attempt (initial and every
retry) runs under an active timeout-bound cancellation scope.  In
`clientRequest` the single abort timer is cleared as soon as the first
attempt settles and never re-armed: with `retries = 1` and an all-500
oracle, the retry attempt's network call is issued with no pending timer
(`false` in the call log). -/
theorem c6_counterexample :
    (clientRequestRun oracleAllServerError 1).callLog
      = [(0, true), (1, false)] := by decide

/-- C6, amended.  Only the FIRST attempt of a `clientRequest` or
`serverRequest` run is issued under the armed timeout timer; every retry
attempt runs with the timer already cleared.  An abort during the first
attempt is classified as Timeout and surfaced (the whole run returns the
classified Timeout `APIError` after that single call). -/
theorem c6_timeout_scope (oracle : Nat → FetchOutcome) (retries : Nat) :
    (∃ rest, (clientRequestRun oracle retries).callLog = (0, true) :: rest
      ∧ ∀ x ∈ rest, x.2 = false)
    ∧ (∃ rest, (serverRequestRun oracle retries).callLog = (0, true) :: rest
      ∧ ∀ x ∈ rest, x.2 = false)
    ∧ (oracle 0 = .abort →
      clientRequestRun oracle retries
        = ⟨.error (.apiError ⟨"Request timeout", .TIMEOUT, none⟩),
           [(0, true)], []⟩
      ∧ serverRequestRun oracle retries
        = ⟨.error (.apiError ⟨"Request timeout", .TIMEOUT, none⟩),
           [(0, true)], []⟩) := by
  unfold clientRequestRun serverRequestRun
  refine ⟨clientRequestGo_callLog_shape oracle retries 0 true,
    serverRequestGo_callLog_shape oracle retries 0 true, ?_⟩
  intro habort
  exact ⟨clientRequestGo_abort oracle retries 0 true habort,
    serverRequestGo_abort oracle retries 0 true habort⟩

/-- C6, witness: a concrete aborted first attempt surfaces the classified
Timeout after one call issued under the armed timer. -/
theorem c6_witness :
    clientRequestRun oracleAllAbort 5
      = ⟨.error (.apiError ⟨"Request timeout", .TIMEOUT, none⟩),
         [(0, true)], []⟩ :=
  ((c6_timeout_scope oracleAllAbort 5).2.2 rfl).1

/-! ### C9 — backoff delays -/

/-- C9, counterexample.  The claim gives the client-side ceiling as
`maxDelay = 5000` ms.  `clientRequest` passes 3000 to
`calculateRetryDelay`: with an all-500 oracle and `retries = 3`, the delay
recorded before attempt 3 (k = 2) is 3000, not
`min(1000·2², 5000) = 4000`. -/
theorem c9_counterexample :
    (clientRequestRun oracleAllServerError 3).delays.get? 2 = some 3000
    ∧ min (1000 * 2 ^ 2) 5000 = 4000
    ∧ (clientRequestRun oracleAllServerError 3).delays.get? 2
      ≠ some (min (1000 * 2 ^ 2) 5000) :=
  ⟨by decide, by decide, by decide⟩

/-- C9, amended.  `calculateRetryDelay` computes
`min(1000·2^attempt, maxDelay)`; every delay recorded by `clientRequest`
at retry index `k` equals `min(1000·2^k, 3000)` (client ceiling 3000, not
5000) and never exceeds 3000; every delay recorded by `serverRequest`
equals `min(1000·2^k, 5000)` and never exceeds 5000; the `JsonApiClient`
retry path applies no ceiling at all: its recorded delay is
`RETRY_DELAY · 2^retryCount` (4096000 ms at depth 12). -/
theorem c9_backoff_formula (oracle : Nat → FetchOutcome)
    (retries k dk attempt maxDelay : Nat) :
    calculateRetryDelay attempt maxDelay
        = min (1000 * 2 ^ attempt) maxDelay
    ∧ ((clientRequestRun oracle retries).delays.get? k = some dk →
        dk = min (1000 * 2 ^ k) 3000 ∧ dk ≤ 3000)
    ∧ ((serverRequestRun oracle retries).delays.get? k = some dk →
        dk = min (1000 * 2 ^ k) 5000 ∧ dk ≤ 5000)
    ∧ (jsonRequestGo oracleAllServerError "/p" "POST" none 13 1000 0 5 12
        [] []).delays = [1000 * 2 ^ 12] := by
  refine ⟨rfl, ?_, ?_, by decide⟩
  · intro h
    unfold clientRequestRun at h
    have hd := clientRequestGo_delays oracle retries 0 true k dk h
    rw [Nat.zero_add] at hd
    rw [hd]
    exact ⟨rfl, min_le_right _ _⟩
  · intro h
    unfold serverRequestRun at h
    have hd := serverRequestGo_delays oracle retries 0 true k dk h
    rw [Nat.zero_add] at hd
    rw [hd]
    exact ⟨rfl, min_le_right _ _⟩

/-- C9, witness: the concrete recorded delays at k = 2 — 3000 on the
client path, 4000 on the server path — satisfy the amended formulas. -/
theorem c9_witness :
    ((3000 : Nat) = min (1000 * 2 ^ 2) 3000 ∧ (3000 : Nat) ≤ 3000)
    ∧ ((4000 : Nat) = min (1000 * 2 ^ 2) 5000 ∧ (4000 : Nat) ≤ 5000) :=
  ⟨(c9_backoff_formula oracleAllServerError 3 2 3000 0 5000).2.1
      (by decide),
   (c9_backoff_formula oracleAllServerError 3 2 4000 0 5000).2.2.1
      (by decide)⟩

end Belin
